import Mathlib

set_option maxRecDepth 20000

namespace JinnAI

/-! Shallow embedding of the message-routing, AI-invocation and
scheduled-delivery logic of the WhatsApp AI bridge server
(source file: the main server module).  JS strings are modelled as
lists of characters; the event loop's timer callbacks are modelled as
explicit step functions on explicit state records. -/

/-! JS string primitives. -/

/-- Whitespace recognised by the JS regex class for whitespace and by
    string trimming, restricted to the code points that occur in this
    development (ASCII whitespace plus NBSP, narrow no-break space, BOM). -/
def isWsp (c : Char) : Bool :=
  c = ' ' || c = '\t' || c = '\n' || c = '\r' ||
    c.toNat = 11 || c.toNat = 12 || c.toNat = 0xA0 || c.toNat = 0x202F || c.toNat = 0xFEFF

/-- JS String.prototype.trim. -/
def trimList (l : List Char) : List Char :=
  ((l.dropWhile isWsp).reverse.dropWhile isWsp).reverse

/-- JS String.prototype.includes (substring occurrence). -/
def containsSub (pat : List Char) : List Char → Bool
  | [] => pat.isEmpty
  | c :: rest => pat.isPrefixOf (c :: rest) || containsSub pat rest

/-- Case-insensitive prefix test (used for regexes carrying the i flag). -/
def ciPrefixOf : List Char → List Char → Bool
  | [], _ => true
  | _ :: _, [] => false
  | a :: as, b :: bs => (a.toLower == b.toLower) && ciPrefixOf as bs

/-- Decimal rendering of a number interpolated into a JS template string. -/
def natChars (n : Nat) : List Char := (Nat.repr n).data

/-- path.basename for the slash-separated paths built by this server. -/
def basename (p : List Char) : List Char :=
  (p.reverse.takeWhile (fun c => c != '/')).reverse

/-! Directive extractor.  The source matches the AI reply against the
regex for a delimited send-file tag: an opening bracket, the literal
SEND_FILE marker, a colon, one or more characters other than a closing
bracket (the captured path), and a closing bracket. -/

def dirTag : List Char := ("[SEND_FILE:").data

/-- Attempt the directive regex anchored at the head of the list; on
    success returns the captured path and the remainder after the
    closing bracket. -/
def dirCaptureAt (l : List Char) : Option (List Char × List Char) :=
  if dirTag.isPrefixOf l then
    let rest := l.drop dirTag.length
    let p := rest.takeWhile (fun c => c != ']')
    match rest.drop p.length with
    | ']' :: tail => if p.isEmpty then none else some (p, tail)
    | _ => none
  else none

/-- Leftmost directive match: the source's aiResponse.match call, which
    yields the first captured path. -/
def firstDirCapture : List Char → Option (List Char)
  | [] => none
  | c :: rest =>
    match dirCaptureAt (c :: rest) with
    | some (p, _) => some p
    | none => firstDirCapture rest

/-- One match of the strip regex (optional surrounding whitespace, then
    a full directive, then optional trailing whitespace) anchored at the
    head; returns the remainder after the match.  The directive opener
    is not whitespace, so the greedy leading whitespace run must end
    exactly where the directive starts. -/
def stripAt (l : List Char) : Option (List Char) :=
  let ws := l.takeWhile isWsp
  match dirCaptureAt (l.drop ws.length) with
  | some (_, tail) => some (tail.dropWhile isWsp)
  | none => none

/-- Global replace of the strip regex by a single space, scanning left
    to right exactly as the JS regex engine does.  Fuel is the input
    length; every match consumes at least one character. -/
def stripGo : Nat → List Char → List Char
  | 0, l => l
  | _ + 1, [] => []
  | fuel + 1, c :: rest =>
    match stripAt (c :: rest) with
    | some tail => ' ' :: stripGo fuel tail
    | none => c :: stripGo fuel rest

/-- aiResponse.replace of every directive occurrence by a space. -/
def stripDirective (l : List Char) : List Char := stripGo l.length l

/-- The macOS screenshot-name repair: global replace of a plain space
    before AM./PM. by the narrow no-break space. -/
def nnbsp : Char := Char.ofNat 0x202F

def amPmFix : List Char → List Char
  | ' ' :: 'A' :: 'M' :: '.' :: rest => nnbsp :: 'A' :: 'M' :: '.' :: amPmFix rest
  | ' ' :: 'P' :: 'M' :: '.' :: rest => nnbsp :: 'P' :: 'M' :: '.' :: amPmFix rest
  | c :: rest => c :: amPmFix rest
  | [] => []

/-! Secondary heuristic: the two legacy image-path regexes (case
insensitive).  The first looks for a keyword, a lazy gap that cannot
cross a line break, one or more separator characters (colon or
whitespace), then an absolute path whose body is drawn from the path
character class and which ends in a recognised image extension.  The
second looks for a home-directory path with a wider extension list. -/

/-- The path body character class: slash, word characters, dash, dot,
    whitespace. -/
def isPathChar (c : Char) : Bool :=
  c = '/' || c = '-' || c = '.' || c = '_' || c.isAlpha || c.isDigit || isWsp c

def isSepChar (c : Char) : Bool := c = ':' || isWsp c

def extList1 : List (List Char) :=
  [("png").data, ("jpg").data, ("jpeg").data, ("gif").data, ("webp").data]

def extList2 : List (List Char) :=
  extList1 ++ [("pdf").data, ("csv").data, ("txt").data, ("doc").data, ("docx").data]

/-- A dot followed by one of the alternated extensions (tried in the
    regex's order, case-insensitively); returns the matched extension
    length. -/
def dotExtAt (exts : List (List Char)) (l : List Char) : Option Nat :=
  match l with
  | '.' :: t => (exts.find? (fun e => ciPrefixOf e t)).map List.length
  | _ => none

/-- Greedy split of the maximal path-character run: the one-or-more
    path body takes as many characters as possible while still being
    followed by a dot and a recognised extension. -/
def greedyExtSplit (exts : List (List Char)) (run : List Char) : Option (List Char) :=
  ((List.range (run.length + 1)).reverse.filterMap fun k =>
    if 1 ≤ k then
      match dotExtAt exts (run.drop k) with
      | some elen => some (run.take k ++ '.' :: (run.drop (k + 1)).take elen)
      | none => none
    else none).head?

/-- The absolute-path part of the first heuristic regex, anchored at
    the head: a slash, the greedy path body, a dot and an extension. -/
def pathCapture (exts : List (List Char)) (l : List Char) : Option (List Char) :=
  match l with
  | '/' :: rest =>
    (greedyExtSplit exts (rest.takeWhile isPathChar)).map (fun cap => '/' :: cap)
  | _ => none

/-- The keyword alternation of the first heuristic regex, tried in the
    source's order, case-insensitively; returns the remainder. -/
def kwAt (l : List Char) : Option (List Char) :=
  if ciPrefixOf (("saved").data) l then some (l.drop 5)
  else if ciPrefixOf (("screenshot").data) l then some (l.drop 10)
  else if ciPrefixOf (("image").data) l then some (l.drop 5)
  else if ciPrefixOf (("file").data) l then some (l.drop 4)
  else none

/-- One or more separator characters then the path.  The path opener is
    not a separator, so the greedy separator run must end exactly where
    the path starts. -/
def sepPathTry (l : List Char) : Option (List Char) :=
  let run := l.takeWhile isSepChar
  if run.isEmpty then none
  else pathCapture extList1 (l.drop run.length)

/-- The lazy gap after the keyword: try the separator-plus-path part at
    the current position first, then widen the gap one character at a
    time; the dot of the gap cannot cross a line terminator. -/
def tryMid : List Char → Option (List Char)
  | [] => none
  | c :: rest =>
    match sepPathTry (c :: rest) with
    | some cap => some cap
    | none =>
      if c = '\n' || c = '\r' || c.toNat = 0x2028 || c.toNat = 0x2029 then none
      else tryMid rest

def h1At (l : List Char) : Option (List Char) :=
  match kwAt l with
  | some rest => tryMid rest
  | none => none

/-- Leftmost match of the first heuristic regex. -/
def heuristic1 : List Char → Option (List Char)
  | [] => none
  | c :: rest =>
    match h1At (c :: rest) with
    | some cap => some cap
    | none => heuristic1 rest

def usersTag : List Char := ("/Users/").data

def h2At (l : List Char) : Option (List Char) :=
  if ciPrefixOf usersTag l then
    let lit := l.take usersTag.length
    let rest := l.drop usersTag.length
    (greedyExtSplit extList2 (rest.takeWhile isPathChar)).map (fun cap => lit ++ cap)
  else none

/-- Leftmost match of the second heuristic regex. -/
def heuristic2 : List Char → Option (List Char)
  | [] => none
  | c :: rest =>
    match h2At (c :: rest) with
    | some cap => some cap
    | none => heuristic2 rest

/-- imagePathMatch: first heuristic regex, or else the second. -/
def imagePathMatch (l : List Char) : Option (List Char) :=
  match heuristic1 l with
  | some cap => some cap
  | none => heuristic2 l

/-! The AI-reply post-processing of the message handler: directive
branch (clean the text, repair and existence-check the path) or
heuristic branch (leave the text untouched). -/

structure AIResult where
  rawText : List Char
  cleanedText : List Char
  filePath : Option (List Char)
  viaHeuristic : Bool
deriving DecidableEq, Repr

/-- The extraction performed on an AI reply by the message handler.
    fsExists abstracts the filesystem existence check.  In the
    heuristic branch the source leaves cleanResponse at the raw reply
    and only gates the media send on existence; the extracted path is
    the trimmed capture. -/
def extractAIResult (fsExists : List Char → Bool) (raw : List Char) : AIResult :=
  let sendFileMatch := firstDirCapture raw
  let imgMatch := imagePathMatch raw
  match sendFileMatch with
  | some p0 =>
    let fp0 := trimList p0
    let clean0 := trimList (stripDirective raw)
    let fp1 :=
      if fsExists fp0 then fp0
      else
        let fx := amPmFix fp0
        if fsExists fx then fx else fp0
    if fsExists fp1 then
      { rawText := raw, cleanedText := clean0, filePath := some fp1, viaHeuristic := false }
    else
      { rawText := raw,
        cleanedText := ("File not found: ").data ++ fp1 ++ ("\n\n").data ++ clean0,
        filePath := none, viaHeuristic := false }
  | none =>
    match imgMatch with
    | some q =>
      { rawText := raw, cleanedText := raw, filePath := some (trimList q), viaHeuristic := true }
    | none =>
      { rawText := raw, cleanedText := raw, filePath := none, viaHeuristic := false }

/-! Batch (Claude) backend outcome classification: the exec callback of
sendToAI.  Captured standard output, captured standard error and the
optional process-level error message are classified by the source's
if/else chain. -/

/-- Leftmost match of the auth-URL regex: the https scheme followed by
    one or more characters that are neither whitespace nor a closing
    bracket, anchored at the head. -/
def urlAt (l : List Char) : Option (List Char) :=
  if ("https://").data.isPrefixOf l then
    let rest := l.drop 8
    let run := rest.takeWhile (fun c => !(isWsp c) && c != ']')
    if run.isEmpty then none else some (("https://").data ++ run)
  else none

def firstUrl : List Char → Option (List Char)
  | [] => none
  | c :: rest =>
    match urlAt (c :: rest) with
    | some u => some u
    | none => firstUrl rest

/-- The authorization/login marker test on standard error: a non-empty
    string containing either marker word. -/
def authMarker (stderr : List Char) : Bool :=
  !stderr.isEmpty && (containsSub (("authorize").data) stderr
    || containsSub (("login").data) stderr)

def authMsg (stderr : List Char) : List Char :=
  match firstUrl stderr with
  | some u => ("Please authorize Claude first: ").data ++ u
  | none => ("Please authorize Claude first: Check terminal for auth URL").data

/-- The exec-callback classification: trimmed stdout, else auth marker,
    else trimmed stderr with backend-name prefixing, else the process
    error, else the generic no-response text.  A JS string is truthy
    together with a non-empty trim exactly when its trim is non-empty. -/
def classifyClaudeResult (stdout stderr : List Char) (err : Option (List Char)) : List Char :=
  if (trimList stdout).isEmpty = false then trimList stdout
  else if authMarker stderr = true then authMsg stderr
  else if (trimList stderr).isEmpty = false then ("Claude: ").data ++ trimList stderr
  else
    match err with
    | some m => ("Claude error: ").data ++ m
    | none => ("No response from Claude").data

/-! Command classifier: the if/else chain of the message handler on the
trimmed text of a self-chat message without media.  Each test lowercases
the text exactly as the source calls toLowerCase in each condition.
The payload parsing inside the prefix-command branches (folder and
interval, send path, screenshot url) is carried as the raw text; no
claim depends on it. -/

inductive Command where
  | switchClaude
  | switchQwen
  | statusCmd
  | clearCmd
  | queueStart (payload : List Char)
  | queueStatusCmd
  | queueStopCmd
  | sendCmd (payload : List Char)
  | screenshotCmd (payload : List Char)
  | freeform (t : List Char)
deriving DecidableEq, Repr

def classify (text : List Char) : Command :=
  if text.map Char.toLower = ("/claude").data then Command.switchClaude
  else if text.map Char.toLower = ("/qwen").data then Command.switchQwen
  else if text.map Char.toLower = ("/status").data then Command.statusCmd
  else if text.map Char.toLower = ("/clear").data then Command.clearCmd
  else if ("/queue ").data.isPrefixOf (text.map Char.toLower) then Command.queueStart text
  else if text.map Char.toLower = ("/queue-status").data then Command.queueStatusCmd
  else if text.map Char.toLower = ("/queue-stop").data then Command.queueStopCmd
  else if ("/send").data.isPrefixOf (text.map Char.toLower) then Command.sendCmd text
  else if ("/screenshot").data.isPrefixOf (text.map Char.toLower) then Command.screenshotCmd text
  else Command.freeform text

/-! Conversation history.  sendToAI on the Claude provider pushes the
user entry, builds the prompt, trims the history to the last
MAX_HISTORY entries when it exceeds that bound, and pushes the
assistant entry when the exec callback fires.  The Qwen provider path
never touches the history. -/

inductive Role where
  | user
  | assistant
deriving DecidableEq, Repr

structure ChatEntry where
  role : Role
  content : List Char
deriving DecidableEq, Repr

def MAX_HISTORY : Nat := 20

/-- The object pushed for the user turn. -/
def userE (c : List Char) : ChatEntry := { role := Role.user, content := c }

/-- The object pushed for the assistant turn. -/
def asstE (c : List Char) : ChatEntry := { role := Role.assistant, content := c }

/-- The net history effect of one completed Claude round: push the user
    entry, trim to the last MAX_HISTORY entries if the bound is
    exceeded (this happens before the reply arrives), then push the
    assistant entry. -/
def claudeRound (hist : List ChatEntry) (prompt response : List Char) : List ChatEntry :=
  let h1 := hist ++ [userE prompt]
  let h2 := if h1.length > MAX_HISTORY then h1.drop (h1.length - MAX_HISTORY) else h1
  h2 ++ [asstE response]

/-- The history effect of sendToAI for a given provider: only the
    Claude branch mutates conversationHistory. -/
def sendToAIHist (provider prompt : List Char) (hist : List ChatEntry)
    (response : List Char) : List ChatEntry :=
  if provider = ("claude").data then claudeRound hist prompt response else hist

def runRoundsFrom (h : List ChatEntry) : List (List Char × List Char) → List ChatEntry
  | [] => h
  | (p, r) :: rest => runRoundsFrom (claudeRound h p r) rest

/-- The stored history after a sequence of completed Claude rounds,
    starting from the empty history. -/
def runRounds (rounds : List (List Char × List Char)) : List ChatEntry :=
  runRoundsFrom [] rounds

/-- The full round sequence: every user and assistant entry in
    insertion order. -/
def fullSeq : List (List Char × List Char) → List ChatEntry
  | [] => []
  | (p, r) :: rest => userE p :: asstE r :: fullSeq rest

/-! File delivery scheduler.  Module state: the fileQueue array, the
queueInterval timer handle (modelled as an armed flag) and the
queueStatus record.  Sends and replies are logged so that delivery
order is observable. -/

structure QueueStatusR where
  active : Bool
  folder : Option (List Char)
  intervalMs : Nat
  totalFiles : Nat
  sentFiles : Nat
  sentList : List (List Char)
deriving DecidableEq, Repr

structure ServerState where
  fileQueue : List (List Char)
  queueTimer : Bool
  qs : QueueStatusR
  replies : List (List Char)
  deliveries : List (List Char × List Char)
deriving DecidableEq, Repr

def initQueueStatus : QueueStatusR :=
  { active := false, folder := none, intervalMs := 60000,
    totalFiles := 0, sentFiles := 0, sentList := [] }

def initState : ServerState :=
  { fileQueue := [], queueTimer := false, qs := initQueueStatus,
    replies := [], deliveries := [] }

def completeMsg (total : Nat) : List Char :=
  ("✅ Queue complete! Sent all ").data ++ natChars total ++ (" files.").data

def mediaCaption (n total : Nat) (name : List Char) : List Char :=
  ("📁 [").data ++ natChars n ++ ("/").data ++ natChars total ++ ("] ").data ++ name

def stopFileQueue (s : ServerState) : ServerState :=
  { s with queueTimer := false, qs := { s.qs with active := false }, fileQueue := [] }

/-- One scheduler delivery attempt: empty queue stops the queue and
    reports completion; otherwise the head is shifted, the media send
    is attempted (ok abstracts the transport), a success bumps the
    counters and a failure re-inserts the same path at the head. -/
def sendNextQueuedFile (ok : List Char → Bool) (s : ServerState) : ServerState :=
  match s.fileQueue with
  | [] =>
    let s1 := stopFileQueue s
    { s1 with replies := s1.replies ++ [completeMsg s1.qs.totalFiles] }
  | filePath :: rest =>
    let fileName := basename filePath
    let caption := mediaCaption (s.qs.sentFiles + 1) s.qs.totalFiles fileName
    let s1 := { s with fileQueue := rest,
                       deliveries := s.deliveries ++ [(filePath, caption)] }
    if ok filePath then
      { s1 with qs := { s1.qs with sentFiles := s1.qs.sentFiles + 1,
                                   sentList := s1.qs.sentList ++ [fileName] } }
    else
      { s1 with fileQueue := filePath :: rest }

/-- startFileQueue: clear any armed timer, enumerate the folder (the
    directory listing, in the unspecified order the filesystem returns
    it, with an is-regular-file flag per entry), fail on an empty file
    set, otherwise replace the queue state, send the first file
    immediately, then arm the repeating timer. -/
def startFileQueue (folder : List Char) (intervalMs : Nat)
    (listing : List (List Char × Bool)) (ok : List Char → Bool)
    (s : ServerState) : ServerState × Bool :=
  let s0 := if s.queueTimer then { s with queueTimer := false } else s
  let files := (listing.filter (fun e => e.2)).map (fun e => folder ++ '/' :: e.1)
  if files.isEmpty then (s0, false)
  else
    let s1 := { s0 with
      fileQueue := files,
      qs := { active := true, folder := some folder, intervalMs := intervalMs,
              totalFiles := files.length, sentFiles := 0, sentList := [] } }
    let s2 := sendNextQueuedFile ok s1
    ({ s2 with queueTimer := true }, true)

structure QueueReport where
  qs : QueueStatusR
  remaining : Nat
  remainingFiles : List (List Char)
deriving DecidableEq, Repr

def getQueueStatus (s : ServerState) : QueueReport :=
  { qs := s.qs, remaining := s.fileQueue.length,
    remainingFiles := s.fileQueue.map basename }

def stopMsg (sent total : Nat) : List Char :=
  ("🛑 Queue stopped.\n\nSent ").data ++ natChars sent ++ ("/").data ++ natChars total
    ++ (" files before stopping.").data

/-- The /queue-stop handler: reply-only when no queue is active,
    otherwise read the counts, stop the queue, reply. -/
def queueStopHandler (s : ServerState) : ServerState :=
  if s.qs.active = false then
    { s with replies := s.replies ++ [("📭 No active queue to stop.").data] }
  else
    let sent := s.qs.sentFiles
    let total := s.qs.totalFiles
    let s1 := stopFileQueue s
    { s1 with replies := s1.replies ++ [stopMsg sent total] }

/-- The operations that can touch the queue state: a start command, a
    timer tick (which fires only while the timer is armed) and the stop
    command. -/
inductive QOp where
  | start (folder : List Char) (intervalMs : Nat)
      (listing : List (List Char × Bool)) (ok : List Char → Bool)
  | tick (ok : List Char → Bool)
  | stop

def QOp.isStop : QOp → Bool
  | QOp.stop => true
  | _ => false

def applyQOp (s : ServerState) : QOp → ServerState
  | QOp.start folder intervalMs listing ok => (startFileQueue folder intervalMs listing ok s).1
  | QOp.tick ok => if s.queueTimer then sendNextQueuedFile ok s else s
  | QOp.stop => queueStopHandler s

def runQ (ops : List QOp) : ServerState := ops.foldl applyQOp initState

/-- n successive delivery attempts (timer ticks on an armed timer). -/
def sendTicks (ok : List Char → Bool) : Nat → ServerState → ServerState
  | 0, s => s
  | n + 1, s => sendTicks ok n (sendNextQueuedFile ok s)

/-- The scheduler invariant claimed by the data model. -/
def qInvariant (s : ServerState) : Prop :=
  s.qs.sentFiles + s.fileQueue.length = s.qs.totalFiles

instance (s : ServerState) : Decidable (qInvariant s) := by
  unfold qInvariant; infer_instance

/-! Presence heartbeat (typing indicator).  typingInterval holds the
handle of the most recently armed timer; liveTimers models which
setInterval handles are currently live in the runtime (armed and not
yet cleared); nextId generates fresh handles. -/

structure TypingState where
  typingInterval : Option Nat
  liveTimers : List Nat
  nextId : Nat
deriving DecidableEq, Repr

/-- startTyping: bail out when the client is not ready or the self chat
    is unknown; ok abstracts the awaited chat lookup and first typing
    signal (a throw is caught and arms nothing).  Otherwise a new
    repeating timer is armed and its handle overwrites typingInterval;
    the source never checks whether a timer is already armed. -/
def startTyping (isReady hasSelfChat ok : Bool) (s : TypingState) : TypingState :=
  if !isReady || !hasSelfChat then s
  else if !ok then s
  else
    { typingInterval := some s.nextId,
      liveTimers := s.liveTimers ++ [s.nextId],
      nextId := s.nextId + 1 }

/-- stopTyping: clear the held timer handle if present; a cleared
    handle is removed from the live set. -/
def stopTyping (s : TypingState) : TypingState :=
  match s.typingInterval with
  | some id =>
    { typingInterval := none, liveTimers := s.liveTimers.erase id, nextId := s.nextId }
  | none => s

/-! Theorems. -/

/-- One completed round maps the length-capped suffix of the full round
    sequence to the length-capped suffix of the extended sequence; the
    cap is 21 because the source trims to MAX_HISTORY between the user
    push and the assistant push. -/
theorem claudeRound_drop (all : List ChatEntry) (u a : List Char) :
    claudeRound (all.drop (all.length - 21)) u a
      = (all ++ [userE u, asstE a]).drop (all.length + 2 - 21) := by
  simp only [claudeRound, MAX_HISTORY]
  by_cases hm : all.length ≤ 19
  · have h0 : all.length - 21 = 0 := by omega
    have h2 : all.length + 2 - 21 = 0 := by omega
    rw [h0, h2, List.drop_zero, List.drop_zero, if_neg]
    · simp
    · simp only [List.length_append, List.length_cons, List.length_nil, gt_iff_lt, not_lt]
      omega
  · have hd : (all.drop (all.length - 21)).length = all.length - (all.length - 21) :=
      List.length_drop _ _
    rw [if_pos]
    · rw [List.drop_append_eq_append_drop, List.drop_append_eq_append_drop, List.drop_drop]
      have e1 : (all.length - 21) +
          ((all.drop (all.length - 21) ++ [userE u]).length - 20) = all.length + 2 - 21 := by
        simp only [List.length_append, hd, List.length_cons, List.length_nil]
        omega
      have e2 : ((all.drop (all.length - 21) ++ [userE u]).length - 20)
          - (all.drop (all.length - 21)).length = 0 := by
        simp only [List.length_append, hd, List.length_cons, List.length_nil]
        omega
      have e3 : all.length + 2 - 21 - all.length = 0 := by omega
      rw [e1, e2, e3, List.drop_zero, List.drop_zero, List.append_assoc]
      rfl
    · simp only [List.length_append, hd, List.length_cons, List.length_nil, gt_iff_lt]
      omega

theorem runRoundsFrom_drop (rounds : List (List Char × List Char)) :
    ∀ all : List ChatEntry,
      runRoundsFrom (all.drop (all.length - 21)) rounds
        = (all ++ fullSeq rounds).drop ((all ++ fullSeq rounds).length - 21) := by
  induction rounds with
  | nil => intro all; simp [runRoundsFrom, fullSeq]
  | cons pr rest ih =>
    intro all
    obtain ⟨p, r⟩ := pr
    show runRoundsFrom (claudeRound (all.drop (all.length - 21)) p r) rest = _
    rw [claudeRound_drop]
    have e1 : all.length + 2 - 21 = (all ++ [userE p, asstE r]).length - 21 := by
      simp only [List.length_append, List.length_cons, List.length_nil]
    rw [e1, ih (all ++ [userE p, asstE r])]
    have e2 : (all ++ [userE p, asstE r]) ++ fullSeq rest = all ++ fullSeq ((p, r) :: rest) := by
      simp [fullSeq, List.append_assoc]
    rw [e2]

/-- Claim C1 (amended): after any sequence of completed Claude rounds
    the stored history equals the most recent min(2N, 21) entries of
    the full round sequence in original order; the resting bound is 21,
    not 20, because the trim to the last 20 happens after the user push
    and before the assistant push. -/
theorem history_trim_amended (rounds : List (List Char × List Char)) :
    runRounds rounds = (fullSeq rounds).drop ((fullSeq rounds).length - 21) ∧
    (runRounds rounds).length = min ((fullSeq rounds).length) 21 := by
  have h : runRounds rounds = (fullSeq rounds).drop ((fullSeq rounds).length - 21) := by
    have := runRoundsFrom_drop rounds []
    simpa [runRounds] using this
  refine ⟨h, ?_⟩
  rw [h, List.length_drop]
  omega

/-- Claim C1 (counterexample): after 11 completed rounds the stored
    history holds 21 entries, refuting the claimed at-rest bound of
    20. -/
theorem history_cap20_counterexample :
    (runRounds (List.replicate 11 (([], []) : List Char × List Char))).length = 21 ∧
    ¬ (runRounds (List.replicate 11 (([], []) : List Char × List Char))).length ≤ 20 := by
  decide

/-- Claim C2: the directive round trip.  With the directive's file
    present, the extractor takes the first captured path, and the
    cleaned text has every directive occurrence removed with the
    surrounding text preserved; a reply repeating the directive is
    stripped of all occurrences and still yields the first path. -/
theorem directive_roundtrip :
    (∀ (fs : List Char → Bool) (raw p : List Char), firstDirCapture raw = some p →
        fs (trimList p) = true →
        (extractAIResult fs raw).filePath = some (trimList p)) ∧
    (extractAIResult (fun p => p == ("/tmp/a.png").data)
        (("Done! [SEND_FILE:/tmp/a.png] enjoy").data)).filePath = some (("/tmp/a.png").data) ∧
    containsSub (("[SEND_FILE:").data)
        ((extractAIResult (fun p => p == ("/tmp/a.png").data)
          (("Done! [SEND_FILE:/tmp/a.png] enjoy").data)).cleanedText) = false ∧
    containsSub (("Done!").data)
        ((extractAIResult (fun p => p == ("/tmp/a.png").data)
          (("Done! [SEND_FILE:/tmp/a.png] enjoy").data)).cleanedText) = true ∧
    containsSub (("enjoy").data)
        ((extractAIResult (fun p => p == ("/tmp/a.png").data)
          (("Done! [SEND_FILE:/tmp/a.png] enjoy").data)).cleanedText) = true ∧
    (extractAIResult (fun p => p == ("/tmp/a.png").data)
        (("Done! [SEND_FILE:/tmp/a.png] enjoy").data)).cleanedText = ("Done! enjoy").data ∧
    (extractAIResult (fun p => p == ("/tmp/a.png").data)
        (("A [SEND_FILE:/tmp/a.png] mid [SEND_FILE:/tmp/b.png] B").data)).filePath
      = some (("/tmp/a.png").data) ∧
    containsSub (("[SEND_FILE:").data)
        ((extractAIResult (fun p => p == ("/tmp/a.png").data)
          (("A [SEND_FILE:/tmp/a.png] mid [SEND_FILE:/tmp/b.png] B").data)).cleanedText) = false ∧
    (extractAIResult (fun p => p == ("/tmp/a.png").data)
        (("A [SEND_FILE:/tmp/a.png] mid [SEND_FILE:/tmp/b.png] B").data)).cleanedText
      = ("A mid B").data := by
  refine ⟨?_, by decide, by decide, by decide, by decide, by decide, by decide, by decide,
    by decide⟩
  intro fs raw p hdir hfs
  simp [extractAIResult, hdir, hfs]

theorem directive_roundtrip_witness :
    (extractAIResult (fun _ => true) (("ok [SEND_FILE:/x/y.png] d").data)).filePath
      = some (trimList (("/x/y.png").data)) :=
  directive_roundtrip.1 (fun _ => true) (("ok [SEND_FILE:/x/y.png] d").data)
    (("/x/y.png").data) (by decide) (by decide)

/-- Claim C3 (counterexample): the source enumerates the folder with
    the listing order the filesystem returns and does not sort; for a
    listing ordered b, a, c the delivery order is b, a, c, not the
    lexicographic a, b, c, and after two timer ticks (besides the
    immediate send) all three files are sent. -/
theorem queue_order_counterexample :
    ((sendTicks (fun _ => true) 2
        ((startFileQueue (("/fix").data) 1000
          [((("b.txt").data), true), ((("a.txt").data), true), ((("c.txt").data), true)]
          (fun _ => true) initState).1)).deliveries.map (fun d => basename d.1))
      = [(("b.txt").data), (("a.txt").data), (("c.txt").data)] ∧
    ((sendTicks (fun _ => true) 2
        ((startFileQueue (("/fix").data) 1000
          [((("b.txt").data), true), ((("a.txt").data), true), ((("c.txt").data), true)]
          (fun _ => true) initState).1)).deliveries.map (fun d => basename d.1))
      ≠ [(("a.txt").data), (("b.txt").data), (("c.txt").data)] ∧
    (sendTicks (fun _ => true) 2
        ((startFileQueue (("/fix").data) 1000
          [((("b.txt").data), true), ((("a.txt").data), true), ((("c.txt").data), true)]
          (fun _ => true) initState).1)).qs.sentFiles = 3 ∧
    (getQueueStatus (sendTicks (fun _ => true) 2
        ((startFileQueue (("/fix").data) 1000
          [((("b.txt").data), true), ((("a.txt").data), true), ((("c.txt").data), true)]
          (fun _ => true) initState).1))).remaining = 0 := by
  decide

/-- Claim C3 (amended): delivery follows the directory listing order;
    the first file is delivered immediately with the start call; after
    the immediate delivery plus one timer tick the status reports two
    sent and one remaining, and the remaining ticks deliver the rest in
    listing order. -/
theorem queue_listing_order_amended :
    (((startFileQueue (("/fix").data) 1000
        [((("b.txt").data), true), ((("a.txt").data), true), ((("c.txt").data), true)]
        (fun _ => true) initState).1).deliveries.map (fun d => basename d.1))
      = [(("b.txt").data)] ∧
    (getQueueStatus (sendTicks (fun _ => true) 1
        ((startFileQueue (("/fix").data) 1000
          [((("b.txt").data), true), ((("a.txt").data), true), ((("c.txt").data), true)]
          (fun _ => true) initState).1))).qs.sentFiles = 2 ∧
    (getQueueStatus (sendTicks (fun _ => true) 1
        ((startFileQueue (("/fix").data) 1000
          [((("b.txt").data), true), ((("a.txt").data), true), ((("c.txt").data), true)]
          (fun _ => true) initState).1))).remaining = 1 ∧
    ((sendTicks (fun _ => true) 2
        ((startFileQueue (("/fix").data) 1000
          [((("b.txt").data), true), ((("a.txt").data), true), ((("c.txt").data), true)]
          (fun _ => true) initState).1)).deliveries.map (fun d => basename d.1))
      = [(("b.txt").data), (("a.txt").data), (("c.txt").data)] := by
  decide

/-- Claim C4: the batch-backend outcome classification follows the
    strict precedence of the exec callback: non-empty trimmed stdout,
    then the authorization marker with the first well-formed URL, then
    non-empty trimmed stderr with the backend-name prefixing, then the
    process error, then the generic no-response message. -/
theorem claude_result_precedence (out err m : List Char) (e : Option (List Char)) :
    ((trimList out).isEmpty = false → classifyClaudeResult out err e = trimList out) ∧
    ((trimList out).isEmpty = true → authMarker err = true →
        classifyClaudeResult out err e = authMsg err) ∧
    ((trimList out).isEmpty = true → authMarker err = false →
        (trimList err).isEmpty = false →
        classifyClaudeResult out err e = ("Claude: ").data ++ trimList err) ∧
    ((trimList out).isEmpty = true → authMarker err = false →
        (trimList err).isEmpty = true →
        classifyClaudeResult out err (some m) = ("Claude error: ").data ++ m) ∧
    ((trimList out).isEmpty = true → authMarker err = false →
        (trimList err).isEmpty = true →
        classifyClaudeResult out err none = ("No response from Claude").data) := by
  refine ⟨?_, ?_, ?_, ?_, ?_⟩
  · intro h1; simp [classifyClaudeResult, h1]
  · intro h1 h2; simp [classifyClaudeResult, h1, h2]
  · intro h1 h2 h3; simp [classifyClaudeResult, h1, h2, h3]
  · intro h1 h2 h3; simp [classifyClaudeResult, h1, h2, h3]
  · intro h1 h2 h3; simp [classifyClaudeResult, h1, h2, h3]

theorem claude_result_precedence_witness :
    classifyClaudeResult (("hi").data) [] none = ("hi").data ∧
    classifyClaudeResult [] (("login at https://a.example/x").data) none
      = ("Please authorize Claude first: https://a.example/x").data :=
  ⟨(claude_result_precedence (("hi").data) [] [] none).1 (by decide),
   by
    have h := (claude_result_precedence [] (("login at https://a.example/x").data) []
      none).2.1 (by decide) (by decide)
    rw [h]; decide⟩

/-- Claim C5 (counterexample): stopping an active queue clears pending
    while retaining the counters, so after a start that delivered one
    of two files followed by the stop command the invariant
    sentFiles + pending = totalFiles fails (1 + 0 against 2). -/
theorem queue_invariant_stop_counterexample :
    ¬ qInvariant (runQ [QOp.start (("/f").data) 1000
        [((("a.txt").data), true), ((("b.txt").data), true)] (fun _ => true), QOp.stop]) ∧
    (runQ [QOp.start (("/f").data) 1000
        [((("a.txt").data), true), ((("b.txt").data), true)] (fun _ => true),
       QOp.stop]).qs.sentFiles = 1 ∧
    (runQ [QOp.start (("/f").data) 1000
        [((("a.txt").data), true), ((("b.txt").data), true)] (fun _ => true),
       QOp.stop]).fileQueue.length = 0 ∧
    (runQ [QOp.start (("/f").data) 1000
        [((("a.txt").data), true), ((("b.txt").data), true)] (fun _ => true),
       QOp.stop]).qs.totalFiles = 2 := by
  refine ⟨?_, by decide, by decide, by decide⟩
  intro h
  exact absurd h (by decide)

theorem sendNext_qInvariant (ok : List Char → Bool) (s : ServerState)
    (h : qInvariant s) : qInvariant (sendNextQueuedFile ok s) := by
  unfold qInvariant at h ⊢
  rcases hq : s.fileQueue with _ | ⟨p, rest⟩ <;>
    simp only [sendNextQueuedFile, hq] <;> rw [hq] at h
  · simpa [stopFileQueue] using h
  · by_cases hk : ok p = true
    · simp only [hk, if_true]
      simp only [List.length_cons] at h
      omega
    · simp only [Bool.not_eq_true] at hk
      simp [hk]
      simpa using h

theorem qInvariant_timer (t : ServerState) (b : Bool) (h : qInvariant t) :
    qInvariant { t with queueTimer := b } := by
  unfold qInvariant at h ⊢
  simpa using h

theorem startFileQueue_qInvariant (folder : List Char) (intervalMs : Nat)
    (listing : List (List Char × Bool)) (ok : List Char → Bool) (s : ServerState)
    (h : qInvariant s) :
    qInvariant (startFileQueue folder intervalMs listing ok s).1 := by
  simp only [startFileQueue]
  by_cases he : ((listing.filter (fun e => e.2)).map
      (fun e => folder ++ '/' :: e.1)).isEmpty = true
  · rw [if_pos he]
    by_cases ht : s.queueTimer = true
    · rw [if_pos ht]
      exact qInvariant_timer s false h
    · rw [if_neg ht]
      exact h
  · rw [if_neg he]
    apply qInvariant_timer
    exact sendNext_qInvariant ok _ (by by_cases ht : s.queueTimer = true <;>
      simp [qInvariant, ht])

theorem applyQOp_qInvariant (s : ServerState) (op : QOp)
    (hop : op.isStop = false) (h : qInvariant s) : qInvariant (applyQOp s op) := by
  cases op with
  | start folder intervalMs listing ok =>
    exact startFileQueue_qInvariant folder intervalMs listing ok s h
  | tick ok =>
    by_cases ht : s.queueTimer = true
    · simpa [applyQOp, ht] using sendNext_qInvariant ok s h
    · simp only [Bool.not_eq_true] at ht
      simpa [applyQOp, ht] using h
  | stop => simp [QOp.isStop] at hop

/-- Claim C5 (amended): the invariant sentFiles + pending = totalFiles
    holds in every state reachable by start commands and timer ticks;
    the stop command breaks it whenever pending is non-empty, because
    the source clears pending but retains the counters. -/
theorem queue_invariant_amended (ops : List QOp)
    (h : ops.all (fun op => !op.isStop) = true) : qInvariant (runQ ops) := by
  suffices H : ∀ (l : List QOp) (s : ServerState),
      l.all (fun op => !op.isStop) = true → qInvariant s →
      qInvariant (l.foldl applyQOp s) by
    exact H ops initState h (by decide)
  intro l
  induction l with
  | nil => intro s _ hs; exact hs
  | cons op rest ih =>
    intro s hall hs
    simp only [List.all_cons, Bool.and_eq_true, Bool.not_eq_true'] at hall
    exact ih (applyQOp s op) (by simpa [List.all_eq_true, Bool.not_eq_true'] using hall.2)
      (applyQOp_qInvariant s op hall.1 hs)

theorem queue_invariant_amended_witness :
    qInvariant (runQ [QOp.start (("/f").data) 1000 [((("a.txt").data), true)] (fun _ => true),
      QOp.tick (fun _ => true)]) :=
  queue_invariant_amended _ (by rfl)

/-- Claim C6: a failed delivery re-inserts the same path at the head of
    pending with sentFiles and sentList unchanged, the attempt is
    logged against that path, and any number of further failing ticks
    leaves the queue and counters unchanged (unbounded retry of the
    identical file, no backoff). -/
theorem queue_retry_head (s : ServerState) (p : List Char) (rest : List (List Char))
    (ok : List Char → Bool) (hq : s.fileQueue = p :: rest) (hok : ok p = false) :
    (sendNextQueuedFile ok s).fileQueue = p :: rest ∧
    (sendNextQueuedFile ok s).qs = s.qs ∧
    (sendNextQueuedFile ok s).deliveries
      = s.deliveries ++ [(p, mediaCaption (s.qs.sentFiles + 1) s.qs.totalFiles (basename p))] ∧
    ∀ n, (sendTicks ok n s).fileQueue = p :: rest ∧ (sendTicks ok n s).qs = s.qs := by
  have step : ∀ t : ServerState, t.fileQueue = p :: rest →
      (sendNextQueuedFile ok t).fileQueue = p :: rest ∧
      (sendNextQueuedFile ok t).qs = t.qs ∧
      (sendNextQueuedFile ok t).deliveries
        = t.deliveries ++ [(p, mediaCaption (t.qs.sentFiles + 1) t.qs.totalFiles (basename p))] := by
    intro t ht
    simp only [sendNextQueuedFile, ht, hok]
    simp
  have ticks : ∀ n (t : ServerState), t.fileQueue = p :: rest →
      (sendTicks ok n t).fileQueue = p :: rest ∧ (sendTicks ok n t).qs = t.qs := by
    intro n
    induction n with
    | zero => intro t ht; exact ⟨ht, rfl⟩
    | succ k ih =>
      intro t ht
      obtain ⟨h1, h2, _⟩ := step t ht
      obtain ⟨h3, h4⟩ := ih (sendNextQueuedFile ok t) h1
      exact ⟨h3, h4.trans h2⟩
  obtain ⟨h1, h2, h3⟩ := step s hq
  exact ⟨h1, h2, h3, fun n => ticks n s hq⟩

theorem queue_retry_head_witness :
    (sendNextQueuedFile (fun _ => false)
      { fileQueue := [(("/t/b.txt").data)], queueTimer := true, qs := initQueueStatus,
        replies := [], deliveries := [] }).fileQueue = [(("/t/b.txt").data)] ∧
    (sendTicks (fun _ => false) 3
      { fileQueue := [(("/t/b.txt").data)], queueTimer := true, qs := initQueueStatus,
        replies := [], deliveries := [] }).qs = initQueueStatus := by
  refine ⟨(queue_retry_head _ _ [] _ rfl rfl).1, ?_⟩
  exact ((queue_retry_head _ _ [] (fun _ => false) rfl rfl).2.2.2 3).2

/-- Claim C7 (counterexample): startTyping has no running guard; a
    second start while the first timer is live arms a second timer
    (two live timers) and changes the state, so start is not a no-op
    when already running. -/
theorem typing_start_guard_counterexample :
    (startTyping true true true
        (startTyping true true true ⟨none, [], 0⟩)).liveTimers.length = 2 ∧
    startTyping true true true (startTyping true true true ⟨none, [], 0⟩)
      ≠ startTyping true true true ⟨none, [], 0⟩ ∧
    (startTyping true true true ⟨none, [], 0⟩).typingInterval.isSome = true ∧
    (stopTyping (startTyping true true true
        (startTyping true true true ⟨none, [], 0⟩))).liveTimers = [0] := by
  decide

/-- Claim C7 (amended): stopTyping cancels the held timer, clears the
    handle, and is idempotent and safe when not running; startTyping
    while a timer is already held arms an additional timer, appending a
    fresh handle to the live set and overwriting the held handle (the
    previously armed timer is leaked, not cancelled). -/
theorem typing_stop_amended (s : TypingState) :
    (stopTyping s).typingInterval = none ∧
    (s.typingInterval = none → stopTyping s = s) ∧
    stopTyping (stopTyping s) = stopTyping s ∧
    (∀ id, s.typingInterval = some id →
      startTyping true true true s
        = { typingInterval := some s.nextId, liveTimers := s.liveTimers ++ [s.nextId],
            nextId := s.nextId + 1 }) := by
  refine ⟨?_, ?_, ?_, ?_⟩
  · rcases h : s.typingInterval with _ | id <;> simp [stopTyping, h]
  · intro h; simp [stopTyping, h]
  · rcases h : s.typingInterval with _ | id <;> simp [stopTyping, h]
  · intro id h; simp [startTyping]

theorem typing_stop_amended_witness :
    startTyping true true true ⟨some 5, [5], 6⟩
      = ({ typingInterval := some 6, liveTimers := [5, 6], nextId := 7 } : TypingState) :=
  (typing_stop_amended ⟨some 5, [5], 6⟩).2.2.2 5 rfl

/-- Claim C8: when no directive is present the extraction never
    rewrites the reply text — the cleaned text equals the raw reply for
    every input without a directive — and on the spec's fixture the
    heuristic extracts the absolute path while leaving the text
    identical. -/
theorem heuristic_keeps_clean :
    (∀ (fs : List Char → Bool) (raw : List Char), firstDirCapture raw = none →
        (extractAIResult fs raw).cleanedText = raw) ∧
    (extractAIResult (fun _ => true)
        (("Saved screenshot: /Users/x/Desktop/shot.png").data)).filePath
      = some (("/Users/x/Desktop/shot.png").data) ∧
    (extractAIResult (fun _ => true)
        (("Saved screenshot: /Users/x/Desktop/shot.png").data)).cleanedText
      = ("Saved screenshot: /Users/x/Desktop/shot.png").data ∧
    (extractAIResult (fun _ => true)
        (("Saved screenshot: /Users/x/Desktop/shot.png").data)).viaHeuristic = true := by
  refine ⟨?_, by decide, by decide, by decide⟩
  intro fs raw h
  simp only [extractAIResult, h]
  rcases himg : imagePathMatch raw with _ | q <;> simp [himg]

theorem heuristic_keeps_clean_witness :
    (extractAIResult (fun _ => false) (("hello world").data)).cleanedText
      = ("hello world").data :=
  heuristic_keeps_clean.1 (fun _ => false) (("hello world").data) (by decide)

/-- Claim C9: a trimmed message equal (case-insensitively) to the
    queue-status or queue-stop command is dispatched to that command:
    the dash makes the queue-start prefix test (which requires a
    space) fail, and the exact matches fire before the freeform
    fallback. -/
theorem queue_command_classification (t : List Char) :
    (t.map Char.toLower = ("/queue-status").data → classify t = Command.queueStatusCmd) ∧
    (t.map Char.toLower = ("/queue-stop").data → classify t = Command.queueStopCmd) := by
  constructor <;> intro h <;> unfold classify <;> rw [h] <;> rfl

theorem queue_command_classification_witness :
    classify (("/Queue-Status").data) = Command.queueStatusCmd ∧
    classify (("/QUEUE-STOP").data) = Command.queueStopCmd :=
  ⟨(queue_command_classification (("/Queue-Status").data)).1 (by decide),
   (queue_command_classification (("/QUEUE-STOP").data)).2 (by decide)⟩

/-- Claim C10: invoking the adapter on the Qwen provider leaves the
    conversation history unchanged; only the Claude branch appends
    entries, so a Qwen round is never recorded. -/
theorem qwen_history_frame (prompt : List Char) (hist : List ChatEntry)
    (response : List Char) :
    sendToAIHist (("qwen").data) prompt hist response = hist := by
  have h : ¬ ((("qwen").data : List Char) = ("claude").data) := by decide
  simp [sendToAIHist, h]

end JinnAI
